import Mathlib

/-!
# SSU-pport: verification of the ingestion-and-distribution pipeline core

Shallow embedding of the pure/algorithmic parts of the SSU-pport notice
pipeline, transcribed from the Python sources:

* `src/main.py`               — `ContentCrawler` (categorize / retry / crawl)
* `src/tools/calendar_tool.py`— `build_gcal_urls`
* `src/ai/SuggestionEngine.py`— suggestion generators and consolidation
* `src/ai/langgraph_pipeline.py` — the OCR/Summary conditional graph
* `src/tools/ocr_tool.py`     — `perform_ocr_on_url`
* `src/tools/email_tool.py`   — `EmailSender.send`

External collaborators (HTTP fetches, the LLM summarizer, the JSON parser
of the standard library, the OCR engine, SMTP, the subscriber database)
are modelled as explicit parameters: a function or an outcome value that
the embedded code consumes, so every theorem quantifies over all possible
behaviours of the collaborator.

Python-value conventions used throughout:
* `dict.get(k, d)` on a typed record becomes an `Option` field plus `getD`;
* string truthiness (`if s:`) becomes a comparison with `""`;
* machine integers stay `Nat`/`Int` (no overflow is reachable here);
* raising code is embedded as `Option`/`Except` or is total by construction.
-/

/-! ## Python-style string primitives -/

/-- `str.strip()` — drop whitespace at both ends (char-list level, so the
kernel can evaluate it). -/
def pyStrip (s : String) : String :=
  String.mk (((s.data.dropWhile Char.isWhitespace).reverse.dropWhile Char.isWhitespace).reverse)

/-- Decimal digits of a char list, most significant first. -/
def digitsVal (cs : List Char) : Nat :=
  cs.foldl (fun acc c => 10 * acc + (c.toNat - 48)) 0

/-- Python `int(s)`: strip whitespace, optional sign, then decimal digits;
`none` models the `ValueError` raised on anything else. -/
def pyInt (s : String) : Option Int :=
  let cs := (pyStrip s).data
  match cs with
  | '-' :: rest => if rest ≠ [] ∧ rest.all Char.isDigit then some (-(digitsVal rest : Int)) else none
  | '+' :: rest => if rest ≠ [] ∧ rest.all Char.isDigit then some (digitsVal rest : Int) else none
  | rest => if rest ≠ [] ∧ rest.all Char.isDigit then some (digitsVal rest : Int) else none

/-- Does `hay` start with `needle` (char lists)? -/
def listStarts : List Char → List Char → Bool
  | _, [] => true
  | [], _ :: _ => false
  | h :: ht, n :: nt => h = n && listStarts ht nt

/-- Does `needle` occur contiguously in `hay` (char lists)? -/
def listHas : List Char → List Char → Bool
  | [], needle => listStarts [] needle
  | h :: t, needle => listStarts (h :: t) needle || listHas t needle

/-- Python `needle in hay` on strings. -/
def strContains (hay needle : String) : Bool := listHas hay.data needle.data

/-- Python `s.startswith(pre)`. -/
def pyStartsWith (s pre : String) : Bool := listStarts s.data pre.data

/-- `str.replace(pat, rep)`: replace non-overlapping occurrences, left to
right.  `fuel` is the length of the untraversed input, so the structural
recursion mirrors the linear scan and the zero-fuel arm is unreachable. -/
def listReplaceF (pat rep : List Char) : Nat → List Char → List Char
  | _, [] => []
  | 0, l => l
  | fuel + 1, c :: rest =>
    if pat ≠ [] ∧ listStarts (c :: rest) pat then
      rep ++ listReplaceF pat rep fuel ((c :: rest).drop pat.length)
    else
      c :: listReplaceF pat rep fuel rest

/-- Python `s.replace(pat, rep)`. -/
def pyReplace (s pat rep : String) : String :=
  String.mk (listReplaceF pat.data rep.data s.data.length s.data)

/-- `str.split(sep)` for a non-empty separator; `acc` holds the current
field, reversed, and `fuel` is as in `listReplaceF`. -/
def listSplitF (sep : List Char) : Nat → List Char → List Char → List (List Char)
  | _, [], acc => [acc.reverse]
  | 0, l, acc => [acc.reverse ++ l]
  | fuel + 1, c :: rest, acc =>
    if sep ≠ [] ∧ listStarts (c :: rest) sep then
      acc.reverse :: listSplitF sep fuel ((c :: rest).drop sep.length) []
    else
      listSplitF sep fuel rest (c :: acc)

/-- Python `s.split(sep)`. -/
def pySplit (s sep : String) : List String :=
  (listSplitF sep.data s.data.length s.data []).map String.mk

/-- Python `sep.join(parts)`. -/
def pyJoin (sep : String) : List String → String
  | [] => ""
  | [x] => x
  | x :: y :: rest => x ++ sep ++ pyJoin sep (y :: rest)

/-- Zero-padded decimal of a natural, width `w` (Python `f"{n:0wd}"`, `n ≥ 0`). -/
def padNat (w : Nat) (n : Nat) : String :=
  let s := toString n
  String.mk (List.replicate (w - s.length) '0') ++ s

/-- Zero-padded decimal of an integer, width `w` (Python `f"{n:0wd}"`). -/
def padInt (w : Nat) (n : Int) : String :=
  if n < 0 then "-" ++ padNat (w - 1) n.natAbs else padNat w n.toNat

/-! ## `urllib.parse.quote` (percent-encoding of the UTF-8 bytes) -/

/-- UTF-8 bytes of one character, as `Nat`s below 256. -/
def utf8Bytes (c : Char) : List Nat :=
  let n := c.toNat
  if n < 128 then [n]
  else if n < 2048 then [192 + n / 64, 128 + n % 64]
  else if n < 65536 then [224 + n / 4096, 128 + (n / 64) % 64, 128 + n % 64]
  else [240 + n / 262144, 128 + (n / 4096) % 64, 128 + (n / 64) % 64, 128 + n % 64]

/-- UTF-8 bytes of a string. -/
def strBytes (s : String) : List Nat := (s.data.map utf8Bytes).flatten

/-- `quote` never encodes ASCII letters, digits, and `_ . - ~`; the
`calendar_tool.enc` helper additionally passes `safe="/T:-_."` when
`keep_slash` is set, which adds `/` and `:` to that set. -/
def quoteAllowed (keepSlash : Bool) (b : Nat) : Bool :=
  (48 ≤ b && b ≤ 57) || (65 ≤ b && b ≤ 90) || (97 ≤ b && b ≤ 122) ||
  b = 95 || b = 45 || b = 46 || b = 126 ||
  (keepSlash && (b = 47 || b = 58))

/-- Uppercase hex digit. -/
def hexDigit (n : Nat) : Char :=
  "0123456789ABCDEF".data.getD n '0'

/-- `%XX` with two uppercase hex digits. -/
def hex2 (b : Nat) : String := String.mk ['%', hexDigit (b / 16), hexDigit (b % 16)]

/-- Percent-encode one UTF-8 byte. -/
def encByte (keepSlash : Bool) (b : Nat) : String :=
  if quoteAllowed keepSlash b then String.singleton (Char.ofNat b) else hex2 b

/-- Percent-encode a byte list. -/
def encBytes (keepSlash : Bool) : List Nat → String
  | [] => ""
  | b :: bs => encByte keepSlash b ++ encBytes keepSlash bs

/-- `calendar_tool`'s `enc(v, keep_slash=...)`: `urllib.parse.quote` with
`safe="/T:-_."` when `keep_slash` else `safe="-_.~"`. -/
def enc (keepSlash : Bool) (v : String) : String := encBytes keepSlash (strBytes v)

/-! ## `src/tools/calendar_tool.py` — `build_gcal_urls` (value level)

The item and its schedule entries are Python dicts; the fields the code
reads become `Option String` fields (`none` = key absent). -/

/-- One entry of `item["schedule"]`. -/
structure CalSchedule where
  description : Option String
  date : Option String
  location : Option String
deriving Repr, DecidableEq

/-- The slice of the notice dict that `build_gcal_urls` reads. -/
structure CalItem where
  title : Option String
  summary : Option String
  schedule : List CalSchedule
deriving Repr, DecidableEq

/-- An element of the returned list: `schedule_item.copy()` with the added
`url` key. -/
structure CalScheduleOut where
  entry : CalSchedule
  url : String
deriving Repr, DecidableEq

/-- Python `x or default` for an optional string (`None` and `""` are falsy). -/
def pyOrStr (o : Option String) (dflt : String) : String :=
  match o with
  | some s => if s = "" then dflt else s
  | none => dflt

/-- `date_str.replace(".", "-").split("-")` followed by `map(int, ...)`;
`none` models the `continue` taken on a wrong part count or `ValueError`. -/
def parseDateParts (date_str : String) : Option (Int × Int × Int) :=
  match pySplit (pyReplace date_str "." "-") "-" with
  | [a, b, c] =>
    match pyInt a, pyInt b, pyInt c with
    | some y, some m, some d => some (y, m, d)
    | _, _, _ => none
  | _ => none

/-- `f"{year:04d}{month:02d}{day:02d}/{year:04d}{month:02d}{day+1:02d}"` —
the `dates` value before encoding: the end bound is the literal day
number plus one. -/
def datesString (y m d : Int) : String :=
  padInt 4 y ++ padInt 2 m ++ padInt 2 d ++ "/" ++ padInt 4 y ++ padInt 2 m ++ padInt 2 (d + 1)

/-- `event_title = f"{title} - {description}" if description else title`. -/
def eventTitle (t : String) (e : CalSchedule) : String :=
  let description := pyStrip (e.description.getD "")
  if description ≠ "" then t ++ " - " ++ description else t

/-- The `lines` accumulation and `details = "\\n".join(lines)`: the
location line, a separating blank line, and the item summary. -/
def detailsOf (s : String) (e : CalSchedule) : String :=
  let location := pyStrip (e.location.getD "")
  pyJoin "\n"
    ((if location ≠ "" then ["[장소] " ++ location] else []) ++
     (if s ≠ "" then (if location ≠ "" then [""] else []) ++ [s] else []))

/-- The body of the `for schedule_item in schedule:` loop; `none` models a
`continue` (entry skipped). `t`/`s` are the stripped item title/summary
computed once before the loop. -/
def processScheduleItem (t s : String) (e : CalSchedule) : Option CalScheduleOut :=
  let date_str := pyStrip (e.date.getD "")
  if date_str = "" then none
  else
    match parseDateParts date_str with
    | none => none
    | some (y, m, d) =>
      let query : List (String × String) :=
        [("action", "TEMPLATE"), ("text", enc false (eventTitle t e)),
         ("dates", enc true (datesString y m d)), ("details", enc false (detailsOf s e)),
         ("ctz", enc false "Asia/Seoul")]
      let qs := pyJoin "&" ((query.filter (fun kv => kv.2 ≠ "")).map (fun kv => kv.1 ++ "=" ++ kv.2))
      some ⟨e, "https://calendar.google.com/calendar/render?" ++ qs⟩

/-- `build_gcal_urls(item)`. -/
def build_gcal_urls (item : CalItem) : List CalScheduleOut :=
  if item.schedule.isEmpty then []
  else
    let t := pyStrip (pyOrStr item.title "제목 없음")
    let s := pyStrip (pyOrStr item.summary "")
    item.schedule.filterMap (processScheduleItem t s)

/-! ## `src/ai/SuggestionEngine.py` — date parsing helpers

`_generate_deadline_suggestions` runs `re.search` with three patterns in
order.  `re.search` returns the leftmost match; `\d{1,2}` is greedy with
one backtracking alternative (two digits then the following literal, else
one digit). -/

/-- Greedy `(\d{1,2})` followed by the literal `sep`: two digits then
`sep`, else one digit then `sep`; returns the value and the rest. -/
def matchTwoDigitsThen (sep : Char) : List Char → Option (Nat × List Char)
  | a :: b :: c :: rest =>
    if a.isDigit && b.isDigit && c = sep then some (digitsVal [a, b], rest)
    else if a.isDigit && b = sep then some (digitsVal [a], c :: rest)
    else none
  | a :: b :: rest =>
    if a.isDigit && b = sep then some (digitsVal [a], rest) else none
  | _ => none

/-- Trailing `(\d{1,2})` at the end of the pattern (anything may follow). -/
def matchTwoDigitsEnd : List Char → Option Nat
  | a :: b :: _ =>
    if a.isDigit && b.isDigit then some (digitsVal [a, b])
    else if a.isDigit then some (digitsVal [a]) else none
  | [a] => if a.isDigit then some (digitsVal [a]) else none
  | [] => none

/-- `(\d{4})sep(\d{1,2})sep(\d{1,2})` anchored at the current position. -/
def matchYMDAt (sep : Char) : List Char → Option (Nat × Nat × Nat)
  | a :: b :: c :: d :: s :: rest =>
    if a.isDigit && b.isDigit && c.isDigit && d.isDigit && s = sep then
      match matchTwoDigitsThen sep rest with
      | some (m, rest2) =>
        match matchTwoDigitsEnd rest2 with
        | some day => some (digitsVal [a, b, c, d], m, day)
        | none => none
      | none => none
    else none
  | _ => none

/-- `(\d{1,2})/(\d{1,2})/(\d{4})` anchored at the current position
(`MM/DD/YYYY`), returned as `(year, month, day)` like the code's
`month, day, year = match.groups()` unpacking. -/
def matchMDYAt : List Char → Option (Nat × Nat × Nat)
  | l =>
    match matchTwoDigitsThen '/' l with
    | some (m, rest) =>
      match matchTwoDigitsThen '/' rest with
      | some (d, rest2) =>
        match rest2 with
        | a :: b :: c :: e :: _ =>
          if a.isDigit && b.isDigit && c.isDigit && e.isDigit then
            some (digitsVal [a, b, c, e], m, d)
          else none
        | _ => none
      | none => none
    | none => none

/-- `re.search`: try the anchored matcher at each position, leftmost first. -/
def searchList (f : List Char → Option α) : List Char → Option α
  | [] => f []
  | c :: rest =>
    match f (c :: rest) with
    | some r => some r
    | none => searchList f rest

/-- Gregorian leap year. -/
def isLeap (y : Nat) : Bool := y % 4 = 0 && (y % 100 ≠ 0 || y % 400 = 0)

/-- Month lengths of year `y`. -/
def monthLengths (y : Nat) : List Nat :=
  [31, if isLeap y then 29 else 28, 31, 30, 31, 30, 31, 31, 30, 31, 30, 31]

/-- Day count of month `m` of year `y`. -/
def daysInMonth (y m : Nat) : Nat := (monthLengths y).getD (m - 1) 31

/-- `datetime(year, month, day)` raises `ValueError` outside these bounds. -/
def validDate (y m d : Nat) : Bool :=
  1 ≤ y && y ≤ 9999 && 1 ≤ m && m ≤ 12 && 1 ≤ d && d ≤ daysInMonth y m

/-- `datetime.toordinal()`: day number of the proleptic Gregorian calendar,
day 1 = 0001-01-01. -/
def toOrdinal (y m d : Nat) : Int :=
  (365 * (y - 1) + (y - 1) / 4 - (y - 1) / 100 + (y - 1) / 400
    + ((monthLengths y).take (m - 1)).sum + d : Int)

/-- The pattern loop: `re.search` each pattern in order; a match that
`datetime` rejects falls through to the next pattern (`continue`). -/
def findDeadline (cs : List Char) : List (List Char → Option (Nat × Nat × Nat)) → Option (Nat × Nat × Nat)
  | [] => none
  | p :: ps =>
    match searchList p cs with
    | some (y, m, d) => if validDate y m d then some (y, m, d) else findDeadline cs ps
    | none => findDeadline cs ps

/-- The three `date_patterns` in source order: `YYYY.MM.DD`, `YYYY-MM-DD`,
`MM/DD/YYYY`. -/
def parseDeadline (date_str : String) : Option (Nat × Nat × Nat) :=
  findDeadline date_str.data [matchYMDAt '.', matchYMDAt '-', matchMDYAt]

/-- `datetime.now()`, to minute granularity: the proleptic ordinal of the
current date and the minute of day (`0 ≤ minute < 1440`). -/
structure PyNow where
  ord : Int
  minute : Nat
deriving Repr, DecidableEq

/-- `(deadline - now).days` for a midnight `deadline`: `timedelta`
normalization floors the day count. -/
def daysLeft (deadlineOrd : Int) (now : PyNow) : Int :=
  Int.fdiv ((deadlineOrd - now.ord) * 1440 - now.minute) 1440

/-- `SuggestionEngine._generate_deadline_suggestions(date_str)`, with the
ambient `datetime.now()` made explicit. -/
def generate_deadline_suggestions (now : PyNow) (date_str : String) : List String :=
  if date_str = "" then ["⏰ 마감일을 별도로 확인해주세요"]
  else
    match parseDeadline date_str with
    | some (y, m, d) =>
      let days_left := daysLeft (toOrdinal y m d) now
      if days_left < 0 then ["⚠️ 마감일이 지났습니다. 연장 가능 여부를 확인해보세요"]
      else if days_left = 0 then ["🚨 오늘이 마감일입니다!"]
      else if days_left ≤ 3 then ["⏰ " ++ toString days_left ++ "일 후 마감입니다. 서둘러 준비하세요!"]
      else if days_left ≤ 7 then ["📅 일주일 내 마감(" ++ toString days_left ++ "일 후)입니다. 미리 준비하세요"]
      else if days_left ≤ 14 then ["📋 2주 내 마감입니다. 필요한 서류를 준비해보세요"]
      else ["📆 마감까지 " ++ toString days_left ++ "일 남았습니다. 계획적으로 준비하세요"]
    | none => ["📅 마감일 형식을 확인하여 일정을 관리하세요"]

/-! ## `src/ai/SuggestionEngine.py` — suggestion generators -/

/-- `SuggestionEngine.generate_error_suggestions(error_type, error_message)`:
substring classification into credential / connectivity / malformed /
validation / other, each with a fixed three-message set. -/
def generate_error_suggestions (error_type error_message : String) : List String :=
  if strContains error_type.toLower "api" || strContains error_message.toLower "key" then
    ["🔑 API 키를 확인해주세요",
     "🔧 환경변수 GOOGLE_API_KEY 설정을 확인해주세요",
     "📱 API 사용량 한도를 확인해주세요"]
  else if strContains error_type.toLower "network" || strContains error_message.toLower "connection" then
    ["🌐 인터넷 연결을 확인해주세요",
     "🔄 잠시 후 다시 시도해주세요",
     "🛡️ 방화벽 설정을 확인해주세요"]
  else if strContains error_type.toLower "json" || strContains error_message.toLower "parsing" then
    ["📝 입력 데이터 형식을 확인해주세요",
     "🔄 다시 시도해주세요",
     "📞 기술지원팀에 문의해주세요"]
  else if strContains error_type.toLower "validation" then
    ["✅ 필수 필드가 모두 입력되었는지 확인해주세요",
     "📏 입력 데이터의 길이와 형식을 확인해주세요",
     "🔍 입력값을 다시 검토해주세요"]
  else
    ["🔄 잠시 후 다시 시도해주세요",
     "📞 관리자에게 문의해주세요",
     "📝 오류 상황을 기록해두시면 도움이 됩니다"]

/-- One entry of the parsed summary's `schedule` array, as read by
`generate_parsing_suggestions` (`.get` with `''` defaults). -/
structure PSchedule where
  description : Option String
  date : Option String
deriving Repr, DecidableEq

/-- The parsed JSON summary (`json.loads` output), as read by the engine.
`truthy` records the Python truthiness of the whole parsed value (an empty
dict parses successfully but is falsy). -/
structure ParsedData where
  truthy : Bool
  title : Option String
  schedule : Option (List PSchedule)
  application_method : Option String
  target : Option String
  important_notes : Option String
deriving Repr, DecidableEq

/-- `SuggestionEngine.generate_parsing_suggestions(parsed_data)` with the
ambient `datetime.now()` made explicit. -/
def generate_parsing_suggestions (now : PyNow) (pd : ParsedData) : List String :=
  let title := pd.title.getD ""
  let s1 : List String :=
    if strContains title "장학" then
      ["💰 장학금 공지입니다. 자격요건을 꼼꼼히 확인해보세요"]
    else if strContains title "취업" || strContains title "채용" then
      ["💼 취업/채용 관련 공지입니다. 지원 자격과 마감일을 확인해보세요"]
    else if strContains title "교환학생" || strContains title "해외" then
      ["✈️ 국제교류 관련 공지입니다. 어학점수 요건을 미리 확인해보세요"]
    else []
  let schedules := pd.schedule.getD []
  let s2 : List String :=
    if schedules ≠ [] then
      (schedules.map (fun sch =>
        if strContains (sch.description.getD "") "마감" then
          generate_deadline_suggestions now (sch.date.getD "")
        else [])).flatten
    else ["⏰ 일정 정보가 없습니다. 관련 부서에 문의하여 마감일을 확인해보세요"]
  let am := pd.application_method.getD ""
  let s3 : List String :=
    if am ≠ "" then
      (if strContains am "온라인" then ["🌐 온라인 신청 - 브라우저 호환성과 인터넷 연결을 확인해주세요"] else []) ++
      (if strContains am "방문" then ["🚪 직접 방문 제출 - 운영시간과 필요 서류를 미리 준비해주세요"] else []) ++
      (if strContains am "이메일" then ["📧 이메일 제출 - 파일 용량 제한과 첨부파일 형식을 확인해주세요"] else [])
    else []
  let tgt := pd.target.getD ""
  let s4 : List String :=
    if tgt ≠ "" then
      (if strContains tgt "학년" then ["🎓 학년 제한이 있습니다. 본인의 해당 여부를 확인해주세요"] else []) ++
      (if strContains tgt "학과" then ["📚 특정 학과 대상입니다. 본인 학과의 해당 여부를 확인해주세요"] else [])
    else []
  let notes := pd.important_notes.getD ""
  let s5 : List String :=
    if notes ≠ "" then
      (if strContains notes "정원" then ["👥 모집 정원이 있습니다. 조기 신청을 권장합니다"] else []) ++
      (if strContains notes "서류" then ["📋 필요 서류가 있습니다. 미리 준비해두시면 좋습니다"] else []) ++
      (if strContains notes "면접" then ["🗣️ 면접이 있을 수 있습니다. 관련 자료를 미리 준비해보세요"] else [])
    else []
  s1 ++ s2 ++ s3 ++ s4 ++ s5

/-- `SuggestionEngine.generate_general_suggestions(category)`. -/
def generate_general_suggestions (category : String) : List String :=
  let c := category.toLower
  if strContains c "장학" then
    ["💡 다른 장학금도 함께 검토해보세요",
     "📋 지원 서류를 미리 준비해두세요",
     "⏰ 마감일 전에 여유있게 신청하세요"]
  else if strContains c "취업" || strContains c "채용" then
    ["📄 이력서와 자기소개서를 미리 준비하세요",
     "🔍 회사 정보를 미리 조사해보세요",
     "💼 관련 자격증이나 경험을 정리해보세요"]
  else if strContains c "교육" || strContains c "강의" then
    ["📚 사전 학습 자료가 있는지 확인해보세요",
     "🕐 수업 시간표를 미리 확인하세요",
     "📝 필요한 준비물이 있는지 확인해보세요"]
  else if strContains c "행사" then
    ["🎫 참가 신청 방법을 미리 확인하세요",
     "📍 행사 장소와 교통편을 확인해보세요",
     "👕 드레스코드가 있는지 확인해보세요"]
  else
    ["📖 공지사항을 주기적으로 확인하세요",
     "❓ 궁금한 점은 담당자에게 문의하세요",
     "📱 관련 앱이나 웹사이트를 북마크해두세요"]

/-- The dedup loop of `consolidate_suggestions`: keep an element iff it is
not in `seen`; `seen` grows with every kept element. -/
def uniqAux (seen : List String) : List String → List String
  | [] => []
  | x :: xs => if x ∈ seen then uniqAux seen xs else x :: uniqAux (x :: seen) xs

/-- `SuggestionEngine.consolidate_suggestions(suggestion_lists, max_suggestions)`:
flatten in call order, drop duplicates keeping the first occurrence, cap the
length. -/
def consolidate_suggestions (suggestion_lists : List (List String)) (max_suggestions : Nat) : List String :=
  (uniqAux [] suggestion_lists.flatten).take max_suggestions

/-- The Python default `max_suggestions=10`. -/
def consolidate_suggestions_default (suggestion_lists : List (List String)) : List String :=
  consolidate_suggestions suggestion_lists 10

/-! ## `src/tools/ocr_tool.py` — `perform_ocr_on_url`

Everything effectful (download, PIL decode, `ocr.predict`) is the outcome
the world hands the function; the whole body sits in one `try/except` that
returns `""`. -/

/-- One element of the `ocr.predict` result list: `rec_texts` when the
result object (or dict) carries them, `none` for an unexpected structure. -/
structure OcrResult where
  rec_texts : Option (List String)
deriving Repr, DecidableEq

/-- What the outside world does for one image URL: raise somewhere in the
download/decode/predict chain, or hand back a result list. -/
inductive OcrWorld where
  | exn (msg : String)
  | results (rs : List OcrResult)
deriving Repr, DecidableEq

/-- `perform_ocr_on_url(img_url)` applied to the world's outcome for that
URL. -/
def perform_ocr_on_url (w : OcrWorld) : String :=
  match w with
  | .exn _ => ""
  | .results [] => ""
  | .results (first :: _) =>
    match first.rec_texts with
    | none => ""
    | some text_lines => if text_lines.isEmpty then "" else pyJoin "\n" text_lines

/-! ## `src/ai/langgraph_pipeline.py` — the conditional graph -/

/-- An image reference inside the notification state; `_OCR` adds the
`ocr_text` key in place. -/
structure ImageRef where
  url : String
  filename : String
  ocr_text : Option String
deriving Repr, DecidableEq

/-- One entry of the `ocr_text` list `_OCR` returns. -/
structure OcrTextEntry where
  filename : String
  ocr_text : String
deriving Repr, DecidableEq

/-- The summary packaged by `_Summary` under the `json_summary` key; absent
dict keys are `none`. -/
structure JsonSummary where
  status : String
  error : Option String
  data : Option String
  parsed_data : Option ParsedData
  suggestions : List String
deriving Repr, DecidableEq

/-- `NotifyState` (the TypedDict): `ocr_text` starts `[]` (absent = `[]`
via the `state.get('ocr_text') or []` read) and `json_summary` starts
`none`. -/
structure NotifyState where
  title : String
  content : String
  image : List ImageRef
  category : String
  ocr_text : List OcrTextEntry
  json_summary : Option JsonSummary
deriving Repr, DecidableEq

/-- `_OCR_branching_condition`: `bool(images and len(images) > 0)`. -/
def ocrBranchCond (st : NotifyState) : Bool := !st.image.isEmpty

/-- `_OCR(state)`: write `ocr_text` into every image dict in place, then
return the `ocr_text` list. `world` is the per-URL OCR collaborator. -/
def ocrNode (world : String → OcrWorld) (st : NotifyState) : NotifyState :=
  let image := st.image.map (fun i => { i with ocr_text := some (perform_ocr_on_url (world i.url)) })
  let ocr_text := image.map (fun i => OcrTextEntry.mk i.filename (i.ocr_text.getD ""))
  { st with image := image, ocr_text := ocr_text }

/-- The external summarizer boundary: `GeminiSummarizer().summarize(title,
ocr_text, content)` either raises (`.error e`, absorbed by `_Summary`'s
`except`) or returns a string. -/
def SummarizeWorld : Type := String → List OcrTextEntry → String → Except String String

/-- The standard-library `json.loads` boundary: `none` = `JSONDecodeError`. -/
def ParseWorld : Type := String → Option ParsedData

/-- `_Summary(state)`: classify the summarizer's answer, parse the JSON,
and package `{status, ...}`; every failure path carries `error` and a
suggestion list from `generate_error_suggestions`. -/
def summaryNode (now : PyNow) (summW : SummarizeWorld) (parseW : ParseWorld)
    (st : NotifyState) : JsonSummary :=
  match summW st.title st.ocr_text st.content with
  | .error e =>
    { status := "error", error := some ("Summary 노드에서 예상치 못한 오류: " ++ e),
      data := none, parsed_data := none,
      suggestions := generate_error_suggestions "unexpected" e }
  | .ok summary_result =>
    if !(pyStartsWith summary_result "요약에 실패했습니다") then
      match parseW summary_result with
      | some pd =>
        if pd.truthy then
          let engine_suggestions := generate_parsing_suggestions now pd
          let general_suggestions := generate_general_suggestions st.category
          let suggestion_lists :=
            (if engine_suggestions ≠ [] then [engine_suggestions] else []) ++
            (if general_suggestions ≠ [] then [general_suggestions] else [])
          { status := "success", error := none, data := some summary_result,
            parsed_data := some pd,
            suggestions := consolidate_suggestions_default suggestion_lists }
        else
          { status := "error", error := some "파싱 실패", data := some summary_result,
            parsed_data := none,
            suggestions := generate_error_suggestions "parsing" "파싱 실패" }
      | none =>
        { status := "error", error := some "파싱 실패", data := some summary_result,
          parsed_data := none,
          suggestions := generate_error_suggestions "parsing" "파싱 실패" }
    else
      { status := "error", error := some summary_result, data := none, parsed_data := none,
        suggestions := generate_error_suggestions "summary" summary_result }

/-- `_Summary` as a graph node: store its dict under `json_summary`. -/
def summaryNodeState (now : PyNow) (summW : SummarizeWorld) (parseW : ParseWorld)
    (st : NotifyState) : NotifyState :=
  { st with json_summary := some (summaryNode now summW parseW st) }

/-- The graph's nodes: `OCR_Node`, `Summary_Node`, plus the implicit start
and finish of `StateGraph`. -/
inductive GNode where
  | startN
  | ocrG
  | sumG
  | doneG
deriving Repr, DecidableEq

/-- The wiring of `_make_graph`: from `START` the conditional edge picks
`OCR_Node` or `Summary_Node`; `OCR_Node → Summary_Node`; `Summary_Node` is
the finish point. -/
def nextNode (st : NotifyState) : GNode → GNode
  | .startN => if ocrBranchCond st then .ocrG else .sumG
  | .ocrG => .sumG
  | .sumG => .doneG
  | .doneG => .doneG

/-- Execute one node on the state. -/
def applyNode (world : String → OcrWorld) (now : PyNow) (summW : SummarizeWorld)
    (parseW : ParseWorld) (st : NotifyState) : GNode → NotifyState
  | .ocrG => ocrNode world st
  | .sumG => summaryNodeState now summW parseW st
  | _ => st

/-- Drive the compiled graph: follow `nextNode` from the current node,
recording each executed node; `fuel` only bounds the acyclic walk. -/
def runGraphAux (world : String → OcrWorld) (now : PyNow) (summW : SummarizeWorld)
    (parseW : ParseWorld) : Nat → GNode → NotifyState → NotifyState × List GNode
  | 0, _, st => (st, [])
  | Nat.succ fuel, node, st =>
    match nextNode st node with
    | .doneG => (st, [])
    | next =>
      let st' := applyNode world now summW parseW st next
      let r := runGraphAux world now summW parseW fuel next st'
      (r.1, next :: r.2)

/-- `llm_agent.invoke(...)`: run the graph from `START`. -/
def runGraph (world : String → OcrWorld) (now : PyNow) (summW : SummarizeWorld)
    (parseW : ParseWorld) (st : NotifyState) : NotifyState × List GNode :=
  runGraphAux world now summW parseW 4 .startN st

/-! ## `src/main.py` — `ContentCrawler`

`urlparse(...).netloc` and `fetcher.fetch_content` are external: the first
is a function `String → String`, the second a per-notification,
per-attempt outcome (the same call may fail then succeed on retry). -/

/-- The slice of a notification dict the crawler reads. -/
structure Notification where
  link : String
  notification_id : Nat
  category_title : String
  title : String
deriving Repr, DecidableEq

/-- What `fetcher.fetch_content` returns for one attempt. -/
structure FetchData where
  fetch_success : Bool
  error : Option String
  title : String
  content : String
deriving Repr, DecidableEq

/-- `content_data` after the crawler adds `notification_id` and `category`. -/
structure ContentData where
  fetch_success : Bool
  error : Option String
  title : String
  content : String
  notification_id : Nat
  category : String
deriving Repr, DecidableEq

/-- The fetch collaborator: outcome of the `attempt`-th `fetch_content`
call for a notification. -/
def Fetcher : Type := Notification → Nat → FetchData

/-- `content_data['notification_id'] = ...; content_data['category'] = ...`. -/
def withMeta (n : Notification) (fd : FetchData) : ContentData :=
  { fetch_success := fd.fetch_success, error := fd.error, title := fd.title,
    content := fd.content, notification_id := n.notification_id,
    category := n.category_title }

/-- The `attempt`-th attempt of `fetch_with_retry`, metadata attached. -/
def fetchAttempt (fetcher : Fetcher) (n : Notification) (attempt : Nat) : ContentData :=
  withMeta n (fetcher n attempt)

/-- The `for attempt in range(max_retries + 1)` loop: `attempt` is the
current index, `retries` the attempts still allowed after it.  Returns the
result together with the number of attempts performed.  On the last
attempt the loop falls through and `return content_data` returns that same
attempt's data, successful or not. -/
def fetchLoop (fetcher : Fetcher) (n : Notification) (attempt : Nat) :
    Nat → ContentData × Nat
  | 0 => (fetchAttempt fetcher n attempt, attempt + 1)
  | Nat.succ retries =>
    let cd := fetchAttempt fetcher n attempt
    if cd.fetch_success then (cd, attempt + 1)
    else fetchLoop fetcher n (attempt + 1) retries

/-- `ContentCrawler.fetch_with_retry(notification, fast_mode)`:
`max_retries = 2`, so three attempts.  `fast_mode` only selects the
inter-attempt sleep. -/
def fetch_with_retry (fetcher : Fetcher) (n : Notification) (fast_mode : Bool) : ContentData :=
  (fetchLoop fetcher n 0 2).1

/-- `retry_delay = 0.5 if fast_mode else 1.0`, in seconds. -/
def retry_delay (fast_mode : Bool) : ℚ := if fast_mode then 1 / 2 else 1

/-- `ContentCrawler.process_domain_group`: fetch each notification of the
domain in order, appending every result. -/
def process_domain_group (fetcher : Fetcher) (ns : List Notification) : List ContentData :=
  ns.map (fun n => fetch_with_retry fetcher n false)

/-- `defaultdict(list)` append: extend the existing key's list, else add
the key at the end (Python dicts preserve insertion order). -/
def upsert (groups : List (String × List Notification)) (d : String) (n : Notification) :
    List (String × List Notification) :=
  match groups with
  | [] => [(d, [n])]
  | (k, v) :: rest => if k = d then (k, v ++ [n]) :: rest else (k, v) :: upsert rest d n

/-- The loop of `categorize_notifications`, accumulators explicit. -/
def categorizeAux (netloc : String → String) (fastDomains : List String) :
    List Notification → List (String × List Notification) → List Notification →
    List (String × List Notification) × List Notification
  | [], gs, fs => (gs, fs)
  | n :: rest, gs, fs =>
    if netloc n.link ∈ fastDomains then categorizeAux netloc fastDomains rest gs (fs ++ [n])
    else categorizeAux netloc fastDomains rest (upsert gs (netloc n.link) n) fs

/-- `ContentCrawler.categorize_notifications(all_notifications)`. -/
def categorize_notifications (netloc : String → String) (fastDomains : List String)
    (all_notifications : List Notification) :
    List (String × List Notification) × List Notification :=
  categorizeAux netloc fastDomains all_notifications [] []

/-- `self.fast_domains = {'scatch.ssu.ac.kr'}`. -/
def fast_domains : List String := ["scatch.ssu.ac.kr"]

/-- `ContentCrawler.crawl_all_content(all_notifications)`: fast futures are
submitted first and collected in submission order, then each grouped
domain's serial results are extended in domain insertion order.  A failed
fetch only marks its own `ContentData`; nothing is dropped. -/
def crawl_all_content (netloc : String → String) (fetcher : Fetcher)
    (all_notifications : List Notification) : List ContentData :=
  let gf := categorize_notifications netloc fast_domains all_notifications
  (gf.2.map (fun n => fetch_with_retry fetcher n true)) ++
    (gf.1.map (fun g => process_domain_group fetcher g.2)).flatten

/-! ## `src/tools/email_tool.py` — `EmailSender.send` -/

/-- The slice of the content dict `send` reads. -/
structure EmailData where
  notification_id : Nat
deriving Repr, DecidableEq

/-- The subscriber directory `EmailDB().get_all_subscribers_email_initial()`,
a dict `notification_id -> [email]`. -/
def SubscriberMap : Type := List (Nat × List String)

/-- `notification_id in receiver` / `receiver[notification_id]`. -/
def subLookup (receiver : SubscriberMap) (k : Nat) : Option (List String) :=
  (receiver.find? (fun kv => kv.1 = k)).map (fun kv => kv.2)

/-- `EmailSender.send(data)`: the returned result string, plus whether
`_send_email` was invoked at all. -/
def emailSend (receiver : SubscriberMap) (data : EmailData) : String × Bool :=
  match subLookup receiver data.notification_id with
  | none =>
    ("No subscribers for notification_id " ++ toString data.notification_id, false)
  | some [] =>
    ("Empty subscriber list for notification_id " ++ toString data.notification_id, false)
  | some receiver_emails =>
    ("Email sent to " ++ toString receiver_emails.length ++
      " subscribers for notification_id " ++ toString data.notification_id, true)

/-! ## `build_gcal_urls`, mutation made explicit (for the frame property)

Dicts live in a heap addressed by allocation order; `schedule_item.copy()`
allocates a fresh dict and `result_item["url"] = ...` writes only to that
fresh address, so the claim that the input is never mutated is a statement
about which addresses the function writes. -/

/-- A Python value a notice dict can hold at the keys this code touches. -/
inductive PVal where
  | vs (s : String)
  | vlist (l : List Nat)
  | vnone
deriving Repr, DecidableEq

/-- A dict: an insertion-ordered association list. -/
abbrev HDict : Type := List (String × PVal)

/-- `d.get(k)`. -/
def dictGet (d : HDict) (k : String) : Option PVal :=
  (d.find? (fun kv => kv.1 = k)).map (fun kv => kv.2)

/-- `d.get(k, "")` where the code expects a string value. -/
def dictGetStr (d : HDict) (k : String) : String :=
  match dictGet d k with
  | some (.vs s) => s
  | _ => ""

/-- `d.get(k, [])` where the code expects a list of dict references. -/
def dictGetList (d : HDict) (k : String) : List Nat :=
  match dictGet d k with
  | some (.vlist l) => l
  | _ => []

/-- `d[k] = v`: overwrite in place (the key keeps its position) or append. -/
def dictSet (d : HDict) (k : String) (v : PVal) : HDict :=
  if d.any (fun kv => kv.1 = k) then
    d.map (fun kv => if kv.1 = k then (kv.1, v) else kv)
  else d ++ [(k, v)]

/-- The heap: dict number `a` is `h.getD a []`. -/
abbrev Heap : Type := List HDict

/-- Dereference an address. -/
def heapGet (h : Heap) (a : Nat) : HDict := h.getD a []

/-- The schedule loop of `build_gcal_urls`, heap-passing: a kept entry is
`schedule_item.copy()` plus the `url` key, allocated at a fresh address;
the loop never writes to an existing address. -/
def gcalLoopH (t s : String) : Heap → List Nat → List Nat → Heap × List Nat
  | h, [], acc => (h, acc)
  | h, a :: rest, acc =>
    let sd := heapGet h a
    let e : CalSchedule :=
      { description := some (dictGetStr sd "description"),
        date := some (dictGetStr sd "date"),
        location := some (dictGetStr sd "location") }
    match processScheduleItem t s e with
    | none => gcalLoopH t s h rest acc
    | some out => gcalLoopH t s (h ++ [dictSet sd "url" (.vs out.url)]) rest (acc ++ [h.length])

/-- `build_gcal_urls(item)` with `item` a dict in the heap whose
`"schedule"` key holds references to the schedule-entry dicts; returns the
final heap and the addresses of the returned (fresh) entries. -/
def build_gcal_urls_heap (h : Heap) (itemAddr : Nat) : Heap × List Nat :=
  let item := heapGet h itemAddr
  let schedule := dictGetList item "schedule"
  if schedule.isEmpty then (h, [])
  else
    let t := pyStrip (pyOrStr (match dictGet item "title" with
      | some (.vs s) => some s
      | _ => none) "제목 없음")
    let s := pyStrip (pyOrStr (match dictGet item "summary" with
      | some (.vs s) => some s
      | _ => none) "")
    gcalLoopH t s h schedule []

/-! ## Basic facts about the embedded primitives -/

theorem string_data_append (s t : String) : (s ++ t).data = s.data ++ t.data := by
  cases s; cases t; rfl

theorem str_ext {s t : String} (h : s.data = t.data) : s = t := by
  cases s; cases t; exact congrArg String.mk h

theorem generate_error_suggestions_ne_nil (t m : String) :
    generate_error_suggestions t m ≠ [] := by
  unfold generate_error_suggestions
  split_ifs <;> simp

theorem generate_general_suggestions_ne_nil (c : String) :
    generate_general_suggestions c ≠ [] := by
  unfold generate_general_suggestions
  dsimp only
  split_ifs <;> simp

/-! ## C4 — deadline bucketing (`_generate_deadline_suggestions`)

The claim expects the "due today" message for a deadline date equal to
today.  The code computes `days_left = (deadline - now).days` where
`deadline` is parsed at midnight, so for any `now` strictly after midnight
the difference is negative and `timedelta.days` floors it to `-1`: the
*overdue* message is produced instead.  (The due-today message actually
fires for deadlines dated tomorrow.)  Evaluated below at noon of
2025-10-12 against the deadline string "2025.10.12". -/

/-- C4: the code, run at noon on 2025-10-12 with the deadline string
"2025.10.12" (a deadline date equal to today), returns the overdue
message, not the due-today message; three days out lands in the ≤3-day
bucket, ten days out in the ≤14-day bucket, a past date in the overdue
bucket, and an unparseable string in the generic fallback. -/
theorem deadline_bucketing_today_is_overdue :
    (generate_deadline_suggestions ⟨toOrdinal 2025 10 12, 720⟩ "2025.10.12" =
      ["⚠️ 마감일이 지났습니다. 연장 가능 여부를 확인해보세요"]) ∧
    (generate_deadline_suggestions ⟨toOrdinal 2025 10 12, 720⟩ "2025.10.12" ≠
      ["🚨 오늘이 마감일입니다!"]) ∧
    (generate_deadline_suggestions ⟨toOrdinal 2025 10 12, 720⟩ "2025.10.15" =
      ["⏰ 2일 후 마감입니다. 서둘러 준비하세요!"]) ∧
    (generate_deadline_suggestions ⟨toOrdinal 2025 10 12, 720⟩ "2025.10.22" =
      ["📋 2주 내 마감입니다. 필요한 서류를 준비해보세요"]) ∧
    (generate_deadline_suggestions ⟨toOrdinal 2025 10 12, 720⟩ "2024.01.01" =
      ["⚠️ 마감일이 지났습니다. 연장 가능 여부를 확인해보세요"]) ∧
    (generate_deadline_suggestions ⟨toOrdinal 2025 10 12, 720⟩ "마감일 추후 공지" =
      ["📅 마감일 형식을 확인하여 일정을 관리하세요"]) := by
  refine ⟨by decide, by decide, by decide, by decide, by decide, by decide⟩

/-! ## C9 — `EmailSender.send` with no subscribers -/

/-- C9: when the notification id is absent from the subscriber mapping, or
maps to an empty list, `send` returns the corresponding no-op result
string and `_send_email` is never invoked. -/
theorem email_send_no_subscribers_is_noop :
    ∀ (receiver : SubscriberMap) (data : EmailData),
      (subLookup receiver data.notification_id = none →
        emailSend receiver data =
          ("No subscribers for notification_id " ++ toString data.notification_id, false)) ∧
      (subLookup receiver data.notification_id = some [] →
        emailSend receiver data =
          ("Empty subscriber list for notification_id " ++ toString data.notification_id, false)) := by
  intro receiver data
  constructor
  · intro h
    unfold emailSend
    rw [h]
  · intro h
    unfold emailSend
    rw [h]

/-- C9 witness: a concrete run of each no-op path. -/
theorem email_send_no_subscribers_is_noop_witness :
    emailSend [] ⟨7⟩ = ("No subscribers for notification_id 7", false) ∧
    emailSend [(7, [])] ⟨7⟩ = ("Empty subscriber list for notification_id 7", false) := by
  constructor
  · exact (email_send_no_subscribers_is_noop [] ⟨7⟩).1 rfl
  · exact (email_send_no_subscribers_is_noop [(7, [])] ⟨7⟩).2 rfl

/-! ## C10 — `build_gcal_urls` never mutates its input -/

theorem gcalLoopH_extends (t s : String) :
    ∀ (addrs : List Nat) (h : Heap) (acc : List Nat),
      (∃ ext, (gcalLoopH t s h addrs acc).1 = h ++ ext) ∧
      (∀ a ∈ (gcalLoopH t s h addrs acc).2, a ∈ acc ∨ h.length ≤ a) := by
  intro addrs
  induction addrs with
  | nil =>
    intro h acc
    exact ⟨⟨[], by simp [gcalLoopH]⟩, by simp [gcalLoopH]; intro a ha; exact Or.inl ha⟩
  | cons a rest ih =>
    intro h acc
    unfold gcalLoopH
    dsimp only
    split
    · exact ⟨(ih h acc).1, (ih h acc).2⟩
    · rename_i out _
      set h' := h ++ [dictSet (heapGet h a) "url" (.vs out.url)] with hh'
      constructor
      · obtain ⟨ext, hext⟩ := (ih h' (acc ++ [h.length])).1
        exact ⟨[dictSet (heapGet h a) "url" (.vs out.url)] ++ ext, by
          rw [hext, hh']; simp⟩
      · intro x hx
        rcases (ih h' (acc ++ [h.length])).2 x hx with hmem | hge
        · rcases List.mem_append.mp hmem with h1 | h2
          · exact Or.inl h1
          · simp at h2
            omega
        · rw [hh'] at hge
          simp at hge
          omega

/-- C10: `build_gcal_urls` leaves every dict that existed before the call
— the item dict and all of its schedule entries — untouched: the original
heap is a prefix of the final heap, and every entry of the returned list
is a freshly allocated copy (its address is outside the input heap). -/
theorem build_gcal_urls_input_unchanged :
    ∀ (h : Heap) (itemAddr : Nat),
      (build_gcal_urls_heap h itemAddr).1.take h.length = h ∧
      ((build_gcal_urls_heap h itemAddr).2.all (fun a => h.length ≤ a)) = true := by
  intro h itemAddr
  unfold build_gcal_urls_heap
  dsimp only
  split
  · simp
  · have hx := gcalLoopH_extends
      (pyStrip (pyOrStr (match dictGet (heapGet h itemAddr) "title" with
        | some (.vs s) => some s
        | _ => none) "제목 없음"))
      (pyStrip (pyOrStr (match dictGet (heapGet h itemAddr) "summary" with
        | some (.vs s) => some s
        | _ => none) ""))
      (dictGetList (heapGet h itemAddr) "schedule") h []
    obtain ⟨⟨ext, hext⟩, hfresh⟩ := hx
    constructor
    · rw [hext]
      simp [List.take_left]
    · rw [List.all_eq_true]
      intro a ha
      rcases hfresh a ha with hmem | hge
      · simp at hmem
      · simpa using hge

/-! ## C6 — `consolidate_suggestions` -/

theorem mem_uniqAux {x : String} :
    ∀ {l seen : List String}, x ∈ uniqAux seen l → x ∈ l ∧ x ∉ seen := by
  intro l
  induction l with
  | nil => intro seen h; simp [uniqAux] at h
  | cons a rest ih =>
    intro seen h
    unfold uniqAux at h
    split at h
    · have := ih h
      exact ⟨List.mem_cons_of_mem a this.1, this.2⟩
    · rcases List.mem_cons.mp h with rfl | hmem
      · exact ⟨List.mem_cons_self x rest, by assumption⟩
      · have := ih hmem
        refine ⟨List.mem_cons_of_mem a this.1, fun hx => this.2 (List.mem_cons_of_mem a hx)⟩

theorem uniqAux_sublist : ∀ (l seen : List String), (uniqAux seen l).Sublist l := by
  intro l
  induction l with
  | nil => intro seen; simp [uniqAux]
  | cons a rest ih =>
    intro seen
    unfold uniqAux
    split
    · exact (ih seen).cons a
    · exact (ih (a :: seen)).cons₂ a

theorem uniqAux_nodup : ∀ (l seen : List String), (uniqAux seen l).Nodup := by
  intro l
  induction l with
  | nil => intro seen; simp [uniqAux]
  | cons a rest ih =>
    intro seen
    unfold uniqAux
    split
    · exact ih seen
    · refine List.nodup_cons.mpr ⟨fun hmem => ?_, ih (a :: seen)⟩
      exact (mem_uniqAux hmem).2 (List.mem_cons_self a seen)

theorem uniqAux_length :
    ∀ (l seen : List String), (uniqAux seen l).length = (l.toFinset \ seen.toFinset).card := by
  intro l
  induction l with
  | nil => intro seen; simp [uniqAux]
  | cons a rest ih =>
    intro seen
    unfold uniqAux
    split
    · rename_i hmem
      rw [ih seen]
      congr 1
      rw [List.toFinset_cons, Finset.insert_sdiff_of_mem _ (List.mem_toFinset.mpr hmem)]
    · rename_i hmem
      have hnot : a ∉ seen.toFinset := fun hx => hmem (List.mem_toFinset.mp hx)
      rw [List.length_cons, ih (a :: seen)]
      rw [List.toFinset_cons, List.toFinset_cons]
      rw [Finset.sdiff_insert]
      rw [Finset.insert_sdiff_of_not_mem _ hnot]
      by_cases hmem2 : a ∈ rest.toFinset \ seen.toFinset
      · rw [Finset.insert_eq_self.mpr hmem2, Finset.card_erase_of_mem hmem2]
        have : 1 ≤ (rest.toFinset \ seen.toFinset).card := Finset.card_pos.mpr ⟨a, hmem2⟩
        omega
      · rw [Finset.erase_eq_of_not_mem hmem2, Finset.card_insert_of_not_mem hmem2]

theorem uniqAux_of_nodup :
    ∀ (l seen : List String), l.Nodup → (∀ x ∈ l, x ∉ seen) → uniqAux seen l = l := by
  intro l
  induction l with
  | nil => intro seen _ _; simp [uniqAux]
  | cons a rest ih =>
    intro seen hnd hdisj
    unfold uniqAux
    rw [if_neg (hdisj a (List.mem_cons_self a rest))]
    congr 1
    refine ih (a :: seen) (List.nodup_cons.mp hnd).2 ?_
    intro x hx
    rw [List.mem_cons]
    rintro (rfl | hmem)
    · exact (List.nodup_cons.mp hnd).1 hx
    · exact hdisj x (List.mem_cons_of_mem a hx) hmem

theorem uniqAux_pairwise_indexOf :
    ∀ (l seen : List String),
      (uniqAux seen l).Pairwise (fun a b => l.indexOf a < l.indexOf b) := by
  intro l
  induction l with
  | nil => intro seen; simp [uniqAux]
  | cons a rest ih =>
    intro seen
    have transfer : ∀ seen', (∀ x ∈ uniqAux seen' rest, x ≠ a) →
        (uniqAux seen' rest).Pairwise (fun x y => (a :: rest).indexOf x < (a :: rest).indexOf y) := by
      intro seen' hne
      refine List.Pairwise.imp_of_mem ?_ (ih seen')
      intro x y hx hy hlt
      rw [List.indexOf_cons_ne _ (Ne.symm (hne x hx)), List.indexOf_cons_ne _ (Ne.symm (hne y hy))]
      omega
    unfold uniqAux
    split
    · rename_i hmem
      refine transfer seen ?_
      intro x hx
      rintro rfl
      exact (mem_uniqAux hx).2 hmem
    · rename_i hmem
      refine List.pairwise_cons.mpr ⟨?_, ?_⟩
      · intro b hb
        have hne : b ≠ a := by
          rintro rfl
          exact (mem_uniqAux hb).2 (List.mem_cons_self b seen)
        rw [List.indexOf_cons_self, List.indexOf_cons_ne _ (Ne.symm hne)]
        omega
      · refine transfer (a :: seen) ?_
        intro x hx
        rintro rfl
        exact (mem_uniqAux hx).2 (List.mem_cons_self x seen)

/-- C6: `consolidate_suggestions` flattens in call order (the output is a
duplicate-free sublist of the flattened input, its elements in strictly
increasing order of first occurrence), has length
`min(unique_count, max_count)`, and re-consolidating its own output
returns it unchanged.  The embedded function is total, so the `except`
fallback path of the source is unreachable. -/
theorem consolidate_suggestions_spec :
    ∀ (ls : List (List String)) (m : Nat),
      (consolidate_suggestions ls m).Sublist ls.flatten ∧
      (consolidate_suggestions ls m).Nodup ∧
      (consolidate_suggestions ls m).length = min ls.flatten.toFinset.card m ∧
      (consolidate_suggestions ls m).Pairwise
        (fun a b => ls.flatten.indexOf a < ls.flatten.indexOf b) ∧
      consolidate_suggestions [consolidate_suggestions ls m] m =
        consolidate_suggestions ls m := by
  intro ls m
  have hsub : (consolidate_suggestions ls m).Sublist ls.flatten :=
    (List.take_sublist _ _).trans (uniqAux_sublist ls.flatten [])
  have hnodup : (consolidate_suggestions ls m).Nodup :=
    (uniqAux_nodup ls.flatten []).sublist (List.take_sublist _ _)
  have hlen : (consolidate_suggestions ls m).length = min ls.flatten.toFinset.card m := by
    unfold consolidate_suggestions
    rw [List.length_take, uniqAux_length]
    simp [Nat.min_comm]
  refine ⟨hsub, hnodup, hlen, ?_, ?_⟩
  · exact (uniqAux_pairwise_indexOf ls.flatten []).sublist (List.take_sublist _ _)
  · show (uniqAux [] (List.flatten [consolidate_suggestions ls m])).take m =
      consolidate_suggestions ls m
    rw [List.flatten_cons, List.flatten_nil, List.append_nil]
    rw [uniqAux_of_nodup _ [] hnodup (by simp)]
    refine List.take_of_length_le ?_
    rw [hlen]
    omega

/-! ## C1 — `crawl_all_content` loses no item -/

/-- Total number of notifications held by the grouped-domain dict. -/
def groupSize (gs : List (String × List Notification)) : Nat :=
  (gs.map (fun g => g.2.length)).sum

theorem upsert_groupSize (gs : List (String × List Notification)) (d : String) (n : Notification) :
    groupSize (upsert gs d n) = groupSize gs + 1 := by
  induction gs with
  | nil => simp [upsert, groupSize]
  | cons g rest ih =>
    obtain ⟨k, v⟩ := g
    unfold upsert
    split
    · simp [groupSize]
      omega
    · simp only [groupSize, List.map_cons, List.sum_cons] at ih ⊢
      omega

theorem categorizeAux_size (netloc : String → String) (fd : List String) :
    ∀ (rest : List Notification) (gs : List (String × List Notification)) (fs : List Notification),
      groupSize (categorizeAux netloc fd rest gs fs).1 +
        (categorizeAux netloc fd rest gs fs).2.length =
      groupSize gs + fs.length + rest.length := by
  intro rest
  induction rest with
  | nil => intro gs fs; simp [categorizeAux]
  | cons n rest ih =>
    intro gs fs
    unfold categorizeAux
    split
    · rw [ih gs (fs ++ [n])]
      simp
      omega
    · rw [ih (upsert gs (netloc n.link) n) fs]
      rw [upsert_groupSize]
      simp
      omega

/-- C1: the crawl emits exactly one `ContentData` per input notification —
for every possible behaviour of the fetch collaborator, including any
pattern of per-item failures — and a grouped domain's serial pass likewise
keeps one result per notification, whatever fails inside it. -/
theorem crawl_all_content_one_result_per_item :
    ∀ (netloc : String → String) (fetcher : Fetcher) (ns : List Notification),
      (crawl_all_content netloc fetcher ns).length = ns.length ∧
      ∀ (ms : List Notification), (process_domain_group fetcher ms).length = ms.length := by
  intro netloc fetcher ns
  constructor
  · unfold crawl_all_content
    dsimp only
    rw [List.length_append, List.length_map, List.length_flatten]
    have hsize := categorizeAux_size netloc fast_domains ns [] []
    unfold categorize_notifications
    simp only [List.map_map]
    have hmap : ∀ gs : List (String × List Notification),
        (gs.map (fun g => (process_domain_group fetcher g.2).length)).sum = groupSize gs := by
      intro gs
      unfold groupSize
      congr 1
      apply List.map_congr_left
      intro g _
      simp [process_domain_group]
    simp only [Function.comp_def]
    rw [hmap]
    have h0 : groupSize ([] : List (String × List Notification)) = 0 := rfl
    rw [h0] at hsize
    simp only [List.length_nil] at hsize
    omega
  · intro ms
    simp [process_domain_group]

/-! ## C7 — `fetch_with_retry`: at most 3 attempts, early success, terminal failure -/

/-- C7: the retry loop performs at most three attempts; it stops at the
first successful attempt and returns exactly that attempt's data; when all
three attempts fail it returns the third attempt's data, still marked
failed and carrying that attempt's error, without raising; and the
fast-mode inter-attempt delay (0.5 s) is strictly shorter than the
grouped-mode delay (1.0 s). -/
theorem fetch_with_retry_spec :
    ∀ (fetcher : Fetcher) (n : Notification) (fast : Bool),
      (fetchLoop fetcher n 0 2).2 ≤ 3 ∧
      (∀ k, k ≤ 2 → (fetcher n k).fetch_success = true →
        (∀ j, j < k → (fetcher n j).fetch_success = false) →
        fetchLoop fetcher n 0 2 = (fetchAttempt fetcher n k, k + 1)) ∧
      ((∀ j, j ≤ 2 → (fetcher n j).fetch_success = false) →
        fetch_with_retry fetcher n fast = fetchAttempt fetcher n 2 ∧
        (fetch_with_retry fetcher n fast).fetch_success = false ∧
        (fetch_with_retry fetcher n fast).error = (fetcher n 2).error) ∧
      retry_delay true < retry_delay false := by
  intro fetcher n fast
  have hsucc : ∀ k, (fetchAttempt fetcher n k).fetch_success = (fetcher n k).fetch_success := by
    intro k; rfl
  have herr : ∀ k, (fetchAttempt fetcher n k).error = (fetcher n k).error := by
    intro k; rfl
  refine ⟨?_, ?_, ?_, ?_⟩
  · unfold fetchLoop
    dsimp only
    split
    · omega
    · unfold fetchLoop
      dsimp only
      split
      · omega
      · unfold fetchLoop
        omega
  · intro k hk hksucc hjfail
    interval_cases k
    · unfold fetchLoop
      dsimp only
      rw [if_pos (by rw [hsucc]; exact hksucc)]
    · have h0 : (fetcher n 0).fetch_success = false := hjfail 0 (by omega)
      unfold fetchLoop
      dsimp only
      rw [if_neg (by rw [hsucc, h0]; simp)]
      unfold fetchLoop
      dsimp only
      rw [if_pos (by rw [hsucc]; exact hksucc)]
    · have h0 : (fetcher n 0).fetch_success = false := hjfail 0 (by omega)
      have h1 : (fetcher n 1).fetch_success = false := hjfail 1 (by omega)
      unfold fetchLoop
      dsimp only
      rw [if_neg (by rw [hsucc, h0]; simp)]
      unfold fetchLoop
      dsimp only
      rw [if_neg (by rw [hsucc, h1]; simp)]
      unfold fetchLoop
      rfl
  · intro hall
    have h0 : (fetcher n 0).fetch_success = false := hall 0 (by omega)
    have h1 : (fetcher n 1).fetch_success = false := hall 1 (by omega)
    have h2 : (fetcher n 2).fetch_success = false := hall 2 (by omega)
    have hres : fetch_with_retry fetcher n fast = fetchAttempt fetcher n 2 := by
      unfold fetch_with_retry fetchLoop
      dsimp only
      rw [if_neg (by rw [hsucc, h0]; simp)]
      unfold fetchLoop
      dsimp only
      rw [if_neg (by rw [hsucc, h1]; simp)]
      unfold fetchLoop
      rfl
    exact ⟨hres, by rw [hres, hsucc, h2], by rw [hres, herr]⟩
  · unfold retry_delay
    norm_num

/-- C7 witness: a notification whose fetch fails on every attempt is
returned after exactly the third attempt, failed, with the last error. -/
theorem fetch_with_retry_spec_witness :
    fetch_with_retry (fun _ _ => ⟨false, some "timeout", "T", "C"⟩)
        ⟨"https://e.example/1", 1, "볼런티어", "t"⟩ true =
      fetchAttempt (fun _ _ => ⟨false, some "timeout", "T", "C"⟩)
        ⟨"https://e.example/1", 1, "볼런티어", "t"⟩ 2 ∧
    (fetch_with_retry (fun _ _ => ⟨false, some "timeout", "T", "C"⟩)
        ⟨"https://e.example/1", 1, "볼런티어", "t"⟩ true).fetch_success = false ∧
    (fetch_with_retry (fun _ _ => ⟨false, some "timeout", "T", "C"⟩)
        ⟨"https://e.example/1", 1, "볼런티어", "t"⟩ true).error = some "timeout" := by
  have h := (fetch_with_retry_spec (fun _ _ => ⟨false, some "timeout", "T", "C"⟩)
    ⟨"https://e.example/1", 1, "볼런티어", "t"⟩ true).2.2.1 (fun j _ => rfl)
  exact ⟨h.1, h.2.1, h.2.2⟩

/-! ## C2 — every terminal pipeline result carries a status; errors carry
a message and non-empty suggestions -/

/-- C2: the dict `_Summary` stores under `json_summary` — the terminal
result of the processing graph — always carries a status, and every
error-status result carries an error message together with a non-empty
suggestion list from `generate_error_suggestions`; a failure string from
the summarizer, a JSON-parse failure (or falsy parse), and an exception
from the summarizer are each reported this way, never dropped. -/
theorem summary_error_results_carry_suggestions :
    ∀ (now : PyNow) (summW : SummarizeWorld) (parseW : ParseWorld) (st : NotifyState),
      ((summaryNode now summW parseW st).status = "success" ∨
        (summaryNode now summW parseW st).status = "error") ∧
      ((summaryNode now summW parseW st).status = "error" →
        (summaryNode now summW parseW st).error.isSome = true ∧
        (summaryNode now summW parseW st).suggestions ≠ []) ∧
      (∀ s, summW st.title st.ocr_text st.content = Except.ok s →
        pyStartsWith s "요약에 실패했습니다" = true →
        (summaryNode now summW parseW st).status = "error" ∧
        (summaryNode now summW parseW st).error = some s) ∧
      (∀ s, summW st.title st.ocr_text st.content = Except.ok s →
        pyStartsWith s "요약에 실패했습니다" = false →
        (parseW s = none ∨ ∃ pd, parseW s = some pd ∧ pd.truthy = false) →
        (summaryNode now summW parseW st).status = "error" ∧
        (summaryNode now summW parseW st).error = some "파싱 실패") ∧
      (∀ e, summW st.title st.ocr_text st.content = Except.error e →
        (summaryNode now summW parseW st).status = "error") := by
  intro now summW parseW st
  unfold summaryNode
  split
  next e heq =>
    refine ⟨Or.inr rfl, fun _ => ⟨rfl, generate_error_suggestions_ne_nil _ _⟩, ?_, ?_, fun _ _ => rfl⟩
    · intro s' hs' _
      exact absurd (heq.symm.trans hs') (by simp)
    · intro s' hs' _ _
      exact absurd (heq.symm.trans hs') (by simp)
  next s heq =>
    split
    next hstart =>
      have hsw : pyStartsWith s "요약에 실패했습니다" = false := by
        simpa using hstart
      split
      next pd heq2 =>
        split
        next htr =>
          refine ⟨Or.inl rfl, fun hc => absurd hc (by simp), ?_, ?_, ?_⟩
          · intro s' hs' hstart'
            have hss := Except.ok.inj (heq.symm.trans hs')
            subst hss
            rw [hsw] at hstart'
            exact absurd hstart' (by simp)
          · intro s' hs' _ hbad
            have hss := Except.ok.inj (heq.symm.trans hs')
            subst hss
            rcases hbad with hnone | ⟨pd', hpd', htr'⟩
            · rw [heq2] at hnone
              exact absurd hnone (by simp)
            · rw [heq2] at hpd'
              have hpp := Option.some.inj hpd'
              subst hpp
              rw [htr] at htr'
              exact absurd htr' (by simp)
          · intro e' he'
            exact absurd (heq.symm.trans he') (by simp)
        next htr =>
          have htrf : pd.truthy = false := by simpa using htr
          refine ⟨Or.inr rfl, fun _ => ⟨rfl, generate_error_suggestions_ne_nil _ _⟩, ?_, ?_, ?_⟩
          · intro s' hs' hstart'
            have hss := Except.ok.inj (heq.symm.trans hs')
            subst hss
            rw [hsw] at hstart'
            exact absurd hstart' (by simp)
          · intro s' hs' _ _
            have hss := Except.ok.inj (heq.symm.trans hs')
            subst hss
            exact ⟨rfl, rfl⟩
          · intro e' he'
            exact absurd (heq.symm.trans he') (by simp)
      next heq2 =>
        refine ⟨Or.inr rfl, fun _ => ⟨rfl, generate_error_suggestions_ne_nil _ _⟩, ?_, ?_, ?_⟩
        · intro s' hs' hstart'
          have hss := Except.ok.inj (heq.symm.trans hs')
          subst hss
          rw [hsw] at hstart'
          exact absurd hstart' (by simp)
        · intro s' hs' _ _
          have hss := Except.ok.inj (heq.symm.trans hs')
          subst hss
          exact ⟨rfl, rfl⟩
        · intro e' he'
          exact absurd (heq.symm.trans he') (by simp)
    next hstart =>
      have hsw : pyStartsWith s "요약에 실패했습니다" = true := by
        rcases h : pyStartsWith s "요약에 실패했습니다" with _ | _
        · rw [h] at hstart
          simp at hstart
        · rfl
      refine ⟨Or.inr rfl, fun _ => ⟨rfl, generate_error_suggestions_ne_nil _ _⟩, ?_, ?_, ?_⟩
      · intro s' hs' _
        have hss := Except.ok.inj (heq.symm.trans hs')
        subst hss
        exact ⟨rfl, rfl⟩
      · intro s' hs' hstart' _
        have hss := Except.ok.inj (heq.symm.trans hs')
        subst hss
        rw [hsw] at hstart'
        exact absurd hstart' (by simp)
      · intro e' he'
        exact absurd (heq.symm.trans he') (by simp)

/-- C2 witness: a summarizer failure string and a JSON-parse failure are
each reported as an error result with a message and non-empty
suggestions. -/
theorem summary_error_results_carry_suggestions_witness :
    (summaryNode ⟨0, 0⟩ (fun _ _ _ => Except.ok "요약에 실패했습니다: boom")
        (fun _ => none) ⟨"t", "c", [], "장학", [], none⟩).status = "error" ∧
    (summaryNode ⟨0, 0⟩ (fun _ _ _ => Except.ok "요약에 실패했습니다: boom")
        (fun _ => none) ⟨"t", "c", [], "장학", [], none⟩).error =
      some "요약에 실패했습니다: boom" ∧
    (summaryNode ⟨0, 0⟩ (fun _ _ _ => Except.ok "not json")
        (fun _ => none) ⟨"t", "c", [], "장학", [], none⟩).status = "error" ∧
    (summaryNode ⟨0, 0⟩ (fun _ _ _ => Except.ok "not json")
        (fun _ => none) ⟨"t", "c", [], "장학", [], none⟩).suggestions ≠ [] := by
  have h1 := (summary_error_results_carry_suggestions ⟨0, 0⟩
    (fun _ _ _ => Except.ok "요약에 실패했습니다: boom") (fun _ => none)
    ⟨"t", "c", [], "장학", [], none⟩).2.2.1 "요약에 실패했습니다: boom" rfl (by decide)
  have h2 := (summary_error_results_carry_suggestions ⟨0, 0⟩
    (fun _ _ _ => Except.ok "not json") (fun _ => none)
    ⟨"t", "c", [], "장학", [], none⟩).2.2.2.1 "not json" rfl (by decide) (Or.inl rfl)
  have h3 := (summary_error_results_carry_suggestions ⟨0, 0⟩
    (fun _ _ _ => Except.ok "not json") (fun _ => none)
    ⟨"t", "c", [], "장학", [], none⟩).2.1 h2.1
  exact ⟨h1.1, h1.2, h2.1, h3.2⟩

/-! ## C8 — items with images visit extraction before summarization;
extraction degrades to the empty string -/

/-- C8: for a state with at least one image the graph executes exactly
`OCR_Node` then `Summary_Node` (extraction strictly before summarization),
attaching an `ocr_text` string to every image; for a state with no images
`OCR_Node` is never executed; and `perform_ocr_on_url` returns `""` on any
raised failure, for every behaviour of the collaborators. -/
theorem pipeline_ocr_before_summary :
    ∀ (world : String → OcrWorld) (now : PyNow) (summW : SummarizeWorld)
      (parseW : ParseWorld) (st : NotifyState),
      (st.image ≠ [] →
        (runGraph world now summW parseW st).2 = [GNode.ocrG, GNode.sumG] ∧
        (runGraph world now summW parseW st).1.image =
          st.image.map (fun i => { i with ocr_text := some (perform_ocr_on_url (world i.url)) }) ∧
        (runGraph world now summW parseW st).1.ocr_text =
          st.image.map (fun i => OcrTextEntry.mk i.filename (perform_ocr_on_url (world i.url)))) ∧
      (st.image = [] → (runGraph world now summW parseW st).2 = [GNode.sumG]) ∧
      (∀ msg, perform_ocr_on_url (OcrWorld.exn msg) = "") := by
  intro world now summW parseW st
  refine ⟨?_, ?_, fun _ => rfl⟩
  · intro himg
    have hcond : ocrBranchCond st = true := by
      unfold ocrBranchCond
      simpa using himg
    have htrace : runGraph world now summW parseW st =
        ((summaryNodeState now summW parseW (ocrNode world st)), [GNode.ocrG, GNode.sumG]) := by
      unfold runGraph runGraphAux
      simp only [nextNode, hcond, if_true]
      rfl
    rw [htrace]
    refine ⟨rfl, ?_, ?_⟩
    · unfold summaryNodeState ocrNode
      dsimp only
    · unfold summaryNodeState ocrNode
      dsimp only
      rw [List.map_map]
      apply List.map_congr_left
      intro i _
      rfl
  · intro himg
    have hcond : ocrBranchCond st = false := by
      unfold ocrBranchCond
      simp [himg]
    unfold runGraph runGraphAux
    simp only [nextNode, hcond, if_false]
    rfl

/-- C8 witness: one image routes through `OCR_Node` then `Summary_Node`
with the extracted text attached; zero images go straight to
`Summary_Node`; a raising extraction yields `""`. -/
theorem pipeline_ocr_before_summary_witness :
    (runGraph (fun _ => OcrWorld.results [⟨some ["헬로", "월드"]⟩]) ⟨0, 0⟩
        (fun _ _ _ => Except.ok "x") (fun _ => none)
        ⟨"t", "c", [⟨"https://img.example/a.jpg", "a.jpg", none⟩], "행사", [], none⟩).2 =
      [GNode.ocrG, GNode.sumG] ∧
    (runGraph (fun _ => OcrWorld.results [⟨some ["헬로", "월드"]⟩]) ⟨0, 0⟩
        (fun _ _ _ => Except.ok "x") (fun _ => none)
        ⟨"t", "c", [⟨"https://img.example/a.jpg", "a.jpg", none⟩], "행사", [], none⟩).1.ocr_text =
      [⟨"a.jpg", "헬로\n월드"⟩] ∧
    (runGraph (fun _ => OcrWorld.exn "down") ⟨0, 0⟩
        (fun _ _ _ => Except.ok "x") (fun _ => none)
        ⟨"t", "c", [], "행사", [], none⟩).2 = [GNode.sumG] ∧
    perform_ocr_on_url (OcrWorld.exn "down") = "" := by
  have h1 := (pipeline_ocr_before_summary (fun _ => OcrWorld.results [⟨some ["헬로", "월드"]⟩])
    ⟨0, 0⟩ (fun _ _ _ => Except.ok "x") (fun _ => none)
    ⟨"t", "c", [⟨"https://img.example/a.jpg", "a.jpg", none⟩], "행사", [], none⟩).1 (by decide)
  have h2 := (pipeline_ocr_before_summary (fun _ => OcrWorld.exn "down")
    ⟨0, 0⟩ (fun _ _ _ => Except.ok "x") (fun _ => none)
    ⟨"t", "c", [], "행사", [], none⟩).2.1 rfl
  refine ⟨h1.1, ?_, h2, rfl⟩
  rw [h1.2.2]
  decide

/-! ## C3/C5 — calendar-link format -/

theorem utf8Bytes_ne_nil (c : Char) : utf8Bytes c ≠ [] := by
  unfold utf8Bytes
  dsimp only
  split_ifs <;> simp

theorem strBytes_ne_nil {s : String} (h : s.data ≠ []) : strBytes s ≠ [] := by
  unfold strBytes
  cases hd : s.data with
  | nil => exact absurd hd h
  | cons c cs =>
    simp only [List.map_cons, List.flatten_cons]
    intro hh
    exact utf8Bytes_ne_nil c (List.append_eq_nil.mp hh).1

theorem encByte_data_ne (ks : Bool) (b : Nat) : (encByte ks b).data ≠ [] := by
  unfold encByte
  split_ifs
  · simp [String.singleton]
  · simp [hex2]

theorem encBytes_ne_empty (ks : Bool) {l : List Nat} (h : l ≠ []) : encBytes ks l ≠ "" := by
  cases l with
  | nil => exact absurd rfl h
  | cons b bs =>
    unfold encBytes
    intro hh
    have hdata := congrArg String.data hh
    rw [string_data_append] at hdata
    have hemp : ("" : String).data = [] := rfl
    rw [hemp] at hdata
    exact encByte_data_ne ks b (List.append_eq_nil.mp hdata).1

theorem enc_ne_empty (ks : Bool) {s : String} (h : s.data ≠ []) : enc ks s ≠ "" :=
  encBytes_ne_empty ks (strBytes_ne_nil h)

theorem datesString_data_ne (y m d : Int) : (datesString y m d).data ≠ [] := by
  unfold datesString
  intro h
  simp only [string_data_append] at h
  rcases List.append_eq_nil.mp h with ⟨h1, -⟩
  rcases List.append_eq_nil.mp h1 with ⟨h2, -⟩
  rcases List.append_eq_nil.mp h2 with ⟨h3, -⟩
  rcases List.append_eq_nil.mp h3 with ⟨-, h4⟩
  exact absurd h4 (by decide)

theorem enc_dates_ne_empty (y m d : Int) : enc true (datesString y m d) ≠ "" :=
  enc_ne_empty true (datesString_data_ne y m d)

/-- The URL a kept schedule entry receives: the fixed base, then the
`&`-joined parameters in the order `action`, `text`, `dates`, `details`,
`ctz`, where `text` and `details` are omitted exactly when their encoded
values are empty and the other three are always present. -/
theorem processScheduleItem_url (t s : String) (e : CalSchedule) (out : CalScheduleOut)
    (h : processScheduleItem t s e = some out) :
    ∃ y m d, parseDateParts (pyStrip (e.date.getD "")) = some (y, m, d) ∧
      out.entry = e ∧
      out.url = "https://calendar.google.com/calendar/render?" ++
        pyJoin "&"
          (["action=TEMPLATE"] ++
           (if enc false (eventTitle t e) = "" then []
            else ["text=" ++ enc false (eventTitle t e)]) ++
           ["dates=" ++ enc true (datesString y m d)] ++
           (if enc false (detailsOf s e) = "" then []
            else ["details=" ++ enc false (detailsOf s e)]) ++
           ["ctz=Asia%2FSeoul"]) := by
  unfold processScheduleItem at h
  dsimp only at h
  split at h
  · exact absurd h (by simp)
  · split at h
    · exact absurd h (by simp)
    · rename_i y m d heq
      refine ⟨y, m, d, heq, ?_, ?_⟩
      · have := Option.some.inj h
        rw [← this]
      · have hout := Option.some.inj h
        rw [← hout]
        dsimp only
        congr 1
        have hctz : enc false "Asia/Seoul" = "Asia%2FSeoul" := by decide
        have hfuse_a : ("action" : String) ++ "=" ++ "TEMPLATE" = "action=TEMPLATE" := by decide
        have hfuse_t : ("text" : String) ++ "=" = "text=" := by decide
        have hfuse_dt : ("dates" : String) ++ "=" = "dates=" := by decide
        have hfuse_de : ("details" : String) ++ "=" = "details=" := by decide
        have hfuse_c : ("ctz" : String) ++ "=" ++ "Asia%2FSeoul" = "ctz=Asia%2FSeoul" := by decide
        congr 1
        by_cases hT : enc false (eventTitle t e) = "" <;>
          by_cases hD : enc false (detailsOf s e) = ""
        all_goals
          simp only [List.filter, hT, hD, hctz, enc_dates_ne_empty y m d,
            decide_not, List.map, hfuse_a, if_pos, if_neg]
        all_goals
          simp [hT, hD, enc_dates_ne_empty y m d, String.append_assoc,
            hfuse_t, hfuse_dt, hfuse_de, hfuse_c, hctz]

theorem listStarts_self_append : ∀ (n r : List Char), listStarts (n ++ r) n = true := by
  intro n
  induction n with
  | nil => intro r; cases r <;> rfl
  | cons c cs ih => intro r; simp [listStarts, ih r]

theorem listHas_mid : ∀ (x n y : List Char), listHas (x ++ (n ++ y)) n = true := by
  intro x
  induction x with
  | nil =>
    intro n y
    cases hny : n ++ y with
    | nil =>
      have hn : n = [] := (List.append_eq_nil.mp hny).1
      subst hn
      rfl
    | cons h t =>
      have hs := listStarts_self_append n y
      rw [hny] at hs
      simp [listHas, hs]
  | cons c cs ih =>
    intro n y
    simp [listHas, ih n y]

theorem strContains_of_decomp (p needle q : String) :
    strContains (p ++ (needle ++ q)) needle = true := by
  unfold strContains
  rw [string_data_append, string_data_append]
  exact listHas_mid p.data needle.data q.data

theorem pyJoin_mem_decomp (sep : String) :
    ∀ (parts : List String) (part : String), part ∈ parts →
      ∃ p q, pyJoin sep parts = p ++ (part ++ q) := by
  intro parts
  induction parts with
  | nil => intro part h; simp at h
  | cons x rest ih =>
    intro part hmem
    cases rest with
    | nil =>
      have hx : part = x := by simpa using hmem
      subst hx
      refine ⟨"", "", ?_⟩
      apply str_ext
      simp [string_data_append, pyJoin]
    | cons y rest' =>
      rcases List.mem_cons.mp hmem with rfl | hmem'
      · refine ⟨"", sep ++ pyJoin sep (y :: rest'), ?_⟩
        apply str_ext
        simp [string_data_append, pyJoin, List.append_assoc]
      · obtain ⟨p, q, hpq⟩ := ih part hmem'
        refine ⟨x ++ sep ++ p, q, ?_⟩
        apply str_ext
        simp [string_data_append, pyJoin, hpq, List.append_assoc]

/-- C3 counterexample: for an entry with an empty description on an item
with no summary, the produced link has no `details` parameter at all, and
its `text` parameter is the bare title, not the encoding of
`"title - description"`; so the URL does not contain exactly the five
claimed parameters. -/
theorem calendar_url_params_counterexample :
    build_gcal_urls ⟨some "Event", none, [⟨some "", some "2025.09.04", none⟩]⟩ =
      [⟨⟨some "", some "2025.09.04", none⟩,
        "https://calendar.google.com/calendar/render?action=TEMPLATE&text=Event&dates=20250904/20250905&ctz=Asia%2FSeoul"⟩] ∧
    strContains
      "https://calendar.google.com/calendar/render?action=TEMPLATE&text=Event&dates=20250904/20250905&ctz=Asia%2FSeoul"
      "details" = false ∧
    strContains
      "https://calendar.google.com/calendar/render?action=TEMPLATE&text=Event&dates=20250904/20250905&ctz=Asia%2FSeoul"
      ("text=" ++ enc false ("Event" ++ " - " ++ "")) = false := by
  refine ⟨by decide, by decide, by decide⟩

/-- The query-parameter shape of every produced link, stated over
`build_gcal_urls` membership (shared by the format and dates theorems). -/
theorem build_gcal_urls_url_shape :
    ∀ (item : CalItem) (out : CalScheduleOut),
      out ∈ build_gcal_urls item →
      ∃ y m d,
        parseDateParts (pyStrip (out.entry.date.getD "")) = some (y, m, d) ∧
        out.url = "https://calendar.google.com/calendar/render?" ++
          pyJoin "&"
            (["action=TEMPLATE"] ++
             (if enc false (eventTitle (pyStrip (pyOrStr item.title "제목 없음")) out.entry) = ""
              then []
              else ["text=" ++ enc false (eventTitle (pyStrip (pyOrStr item.title "제목 없음")) out.entry)]) ++
             ["dates=" ++ enc true (datesString y m d)] ++
             (if enc false (detailsOf (pyStrip (pyOrStr item.summary "")) out.entry) = ""
              then []
              else ["details=" ++ enc false (detailsOf (pyStrip (pyOrStr item.summary "")) out.entry)]) ++
             ["ctz=Asia%2FSeoul"]) := by
  intro item out hmem
  unfold build_gcal_urls at hmem
  split at hmem
  · simp at hmem
  · obtain ⟨e, hin, hsome⟩ := List.mem_filterMap.mp hmem
    obtain ⟨y, m, d, hp, hentry, hurl⟩ := processScheduleItem_url _ _ e out hsome
    subst hentry
    exact ⟨y, m, d, hp, hurl⟩

/-- C3 (amended): every produced calendar link is the fixed base followed
by the `&`-joined query parameters in the order `action=TEMPLATE`,
`text=<url-encoded "title - description" when the description is
non-empty, else the bare title>`, `dates=<YYYYMMDD>/<YYYYMMDD+1>`,
`details=<url-encoded multi-line body>`, `ctz=Asia%2FSeoul` (`Asia/Seoul`
url-encoded), where `text` and `details` are omitted exactly when their
encoded values are empty and the other three always appear. -/
theorem calendar_url_params :
    ∀ (item : CalItem) (out : CalScheduleOut),
      out ∈ build_gcal_urls item →
      ∃ y m d,
        parseDateParts (pyStrip (out.entry.date.getD "")) = some (y, m, d) ∧
        out.url = "https://calendar.google.com/calendar/render?" ++
          pyJoin "&"
            (["action=TEMPLATE"] ++
             (if enc false (eventTitle (pyStrip (pyOrStr item.title "제목 없음")) out.entry) = ""
              then []
              else ["text=" ++ enc false (eventTitle (pyStrip (pyOrStr item.title "제목 없음")) out.entry)]) ++
             ["dates=" ++ enc true (datesString y m d)] ++
             (if enc false (detailsOf (pyStrip (pyOrStr item.summary "")) out.entry) = ""
              then []
              else ["details=" ++ enc false (detailsOf (pyStrip (pyOrStr item.summary "")) out.entry)]) ++
             ["ctz=Asia%2FSeoul"]) := by
  exact build_gcal_urls_url_shape

set_option maxRecDepth 8000 in
/-- C3 witness: the amended format theorem applied to a concrete item with
a description, a location, and a summary: all five parameters appear, in
order. -/
theorem calendar_url_params_witness :
    ∃ out, build_gcal_urls ⟨some "Event", some "요약", [⟨some "마감", some "2025.09.04", some "서울"⟩]⟩ = [out] ∧
      out.url =
        "https://calendar.google.com/calendar/render?action=TEMPLATE&text=Event%20-%20%EB%A7%88%EA%B0%90&dates=20250904/20250905&details=%5B%EC%9E%A5%EC%86%8C%5D%20%EC%84%9C%EC%9A%B8%0A%0A%EC%9A%94%EC%95%BD&ctz=Asia%2FSeoul" := by
  refine ⟨⟨⟨some "마감", some "2025.09.04", some "서울"⟩,
    "https://calendar.google.com/calendar/render?action=TEMPLATE&text=Event%20-%20%EB%A7%88%EA%B0%90&dates=20250904/20250905&details=%5B%EC%9E%A5%EC%86%8C%5D%20%EC%84%9C%EC%9A%B8%0A%0A%EC%9A%94%EC%95%BD&ctz=Asia%2FSeoul"⟩,
    by decide, ?_⟩
  obtain ⟨y, m, d, hp, hurl⟩ := calendar_url_params
    ⟨some "Event", some "요약", [⟨some "마감", some "2025.09.04", some "서울"⟩]⟩
    ⟨⟨some "마감", some "2025.09.04", some "서울"⟩,
      "https://calendar.google.com/calendar/render?action=TEMPLATE&text=Event%20-%20%EB%A7%88%EA%B0%90&dates=20250904/20250905&details=%5B%EC%9E%A5%EC%86%8C%5D%20%EC%84%9C%EC%9A%B8%0A%0A%EC%9A%94%EC%95%BD&ctz=Asia%2FSeoul"⟩
    (by decide)
  have hymd : (y, m, d) = ((2025 : Int), (9 : Int), (4 : Int)) := by
    have h2 : parseDateParts (pyStrip ((some "2025.09.04" : Option String).getD "")) =
        some (2025, 9, 4) := by decide
    exact Option.some.inj (hp.symm.trans h2)
  rw [hurl]
  obtain ⟨hy, hm, hd⟩ : y = 2025 ∧ m = 9 ∧ d = 4 := by
    constructor
    · exact congrArg Prod.fst hymd
    · exact ⟨congrArg (fun p => p.2.1) hymd, congrArg (fun p => p.2.2) hymd⟩
  subst hy hm hd
  decide

/-! ## C5 — dates derivation and dateless-entry skipping -/

/-- A schedule entry whose (stripped) date is empty is skipped by the loop. -/
theorem processScheduleItem_skip_dateless (t s : String) (e : CalSchedule)
    (h : pyStrip (e.date.getD "") = "") : processScheduleItem t s e = none := by
  unfold processScheduleItem
  rw [if_pos h]

set_option maxRecDepth 8000 in
/-- C5: the `dates` value of every produced link is derived from the
parsed schedule date with the end bound `day + 1` (`datesString` is the
literal `f"{y:04d}{m:02d}{d:02d}/{y:04d}{m:02d}{d+1:02d}"`); a dated
"2025.09.04" entry concretely yields `dates=20250904/20250905`; and an
entry with no date field is excluded from the returned list, nothing
raising anywhere (the embedding is total). -/
theorem calendar_dates_and_dateless_skip :
    (build_gcal_urls ⟨some "과제 안내", none,
        [⟨some "마감", none, none⟩, ⟨some "제출", some "2025.09.04", none⟩]⟩ =
      [⟨⟨some "제출", some "2025.09.04", none⟩,
        "https://calendar.google.com/calendar/render?action=TEMPLATE&text=%EA%B3%BC%EC%A0%9C%20%EC%95%88%EB%82%B4%20-%20%EC%A0%9C%EC%B6%9C&dates=20250904/20250905&ctz=Asia%2FSeoul"⟩]) ∧
    (∀ (item : CalItem) (e : CalSchedule) (out : CalScheduleOut),
      pyStrip (e.date.getD "") = "" → out ∈ build_gcal_urls item → out.entry ≠ e) ∧
    (∀ (item : CalItem) (out : CalScheduleOut), out ∈ build_gcal_urls item →
      ∃ y m d p q,
        parseDateParts (pyStrip (out.entry.date.getD "")) = some (y, m, d) ∧
        out.url = p ++ (("dates=" ++ enc true (datesString y m d)) ++ q) ∧
        strContains out.url ("dates=" ++ enc true (datesString y m d)) = true) := by
  refine ⟨by decide, ?_, ?_⟩
  · intro item e out hdate hmem
    unfold build_gcal_urls at hmem
    split at hmem
    · simp at hmem
    · obtain ⟨e', hin, hsome⟩ := List.mem_filterMap.mp hmem
      obtain ⟨y, m, d, hp, hentry, -⟩ := processScheduleItem_url _ _ e' out hsome
      intro hcontra
      rw [hentry] at hcontra
      subst hcontra
      rw [processScheduleItem_skip_dateless _ _ e' hdate] at hsome
      exact Option.noConfusion hsome
  · intro item out hmem
    obtain ⟨y, m, d, hp, hurl⟩ := build_gcal_urls_url_shape item out hmem
    have hmemlist : ("dates=" ++ enc true (datesString y m d)) ∈
        (["action=TEMPLATE"] ++
         (if enc false (eventTitle (pyStrip (pyOrStr item.title "제목 없음")) out.entry) = ""
          then []
          else ["text=" ++ enc false (eventTitle (pyStrip (pyOrStr item.title "제목 없음")) out.entry)]) ++
         ["dates=" ++ enc true (datesString y m d)] ++
         (if enc false (detailsOf (pyStrip (pyOrStr item.summary "")) out.entry) = ""
          then []
          else ["details=" ++ enc false (detailsOf (pyStrip (pyOrStr item.summary "")) out.entry)]) ++
         ["ctz=Asia%2FSeoul"]) := by
      simp
    obtain ⟨p0, q0, hjoin⟩ := pyJoin_mem_decomp "&" _ _ hmemlist
    refine ⟨y, m, d, "https://calendar.google.com/calendar/render?" ++ p0, q0, hp, ?_, ?_⟩
    · rw [hurl, hjoin]
      apply str_ext
      simp [string_data_append, List.append_assoc]
    · rw [hurl, hjoin]
      have : "https://calendar.google.com/calendar/render?" ++ (p0 ++ (("dates=" ++ enc true (datesString y m d)) ++ q0)) =
          ("https://calendar.google.com/calendar/render?" ++ p0) ++ (("dates=" ++ enc true (datesString y m d)) ++ q0) := by
        apply str_ext
        simp [string_data_append, List.append_assoc]
      rw [this]
      exact strContains_of_decomp _ _ _

set_option maxRecDepth 8000 in
/-- C5 witness: the skip conjunct applied to the concrete dateless entry
of the item above, and the dates conjunct applied to its dated entry. -/
theorem calendar_dates_and_dateless_skip_witness :
    (∀ out ∈ build_gcal_urls ⟨some "과제 안내", none,
        [⟨some "마감", none, none⟩, ⟨some "제출", some "2025.09.04", none⟩]⟩,
      out.entry ≠ ⟨some "마감", none, none⟩) ∧
    strContains
      "https://calendar.google.com/calendar/render?action=TEMPLATE&text=%EA%B3%BC%EC%A0%9C%20%EC%95%88%EB%82%B4%20-%20%EC%A0%9C%EC%B6%9C&dates=20250904/20250905&ctz=Asia%2FSeoul"
      ("dates=" ++ enc true (datesString 2025 9 4)) = true := by
  constructor
  · intro out hmem
    exact calendar_dates_and_dateless_skip.2.1 _ ⟨some "마감", none, none⟩ out (by decide) hmem
  · have h := calendar_dates_and_dateless_skip.2.2
      ⟨some "과제 안내", none, [⟨some "마감", none, none⟩, ⟨some "제출", some "2025.09.04", none⟩]⟩
      ⟨⟨some "제출", some "2025.09.04", none⟩,
        "https://calendar.google.com/calendar/render?action=TEMPLATE&text=%EA%B3%BC%EC%A0%9C%20%EC%95%88%EB%82%B4%20-%20%EC%A0%9C%EC%B6%9C&dates=20250904/20250905&ctz=Asia%2FSeoul"⟩
      (by rw [calendar_dates_and_dateless_skip.1]; exact List.mem_singleton.mpr rfl)
    obtain ⟨y, m, d, p, q, hp, -, hcont⟩ := h
    have hymd : (y, m, d) = ((2025 : Int), (9 : Int), (4 : Int)) := by
      have h2 : parseDateParts (pyStrip ((some "2025.09.04" : Option String).getD "")) =
          some (2025, 9, 4) := by decide
      exact Option.some.inj (hp.symm.trans h2)
    have hy : y = 2025 := congrArg Prod.fst hymd
    have hm : m = 9 := congrArg (fun p => p.2.1) hymd
    have hd : d = 4 := congrArg (fun p => p.2.2) hymd
    subst hy hm hd
    exact hcont
